/-
Verification of the tenant-isolated document indexing dispatcher, the
document lifecycle state machine, and the datasource streaming bridge.

The streaming bridge (`DatasourceManager.stream_node_events`,
`DatasourceManager.get_upload_file_by_id`) is embedded from
`api/core/datasource/datasource_manager.py`.  The tenant task queue, the
dispatch proxy, the indexing task and the document lifecycle service are
not shipped in this excerpt (only their test suites are), so they are
modelled from the specification text, as marked on each definition.
-/
import Mathlib

namespace Dify

/-! ## Task descriptors and the tenant task queue (spec §4.1) -/

/-- A task descriptor held in a tenant's waiting list:
`{tenant_id, dataset_id, document_ids}`. -/
structure TaskDescriptor where
  tenant_id : String
  dataset_id : String
  document_ids : List String
  deriving Repr, DecidableEq

/-- Modelled from the spec: per-tenant state of `TenantIsolatedTaskQueue`
(`core.rag.pipeline.queue`, not in this excerpt) — an ordered FIFO waiting
list (head = oldest) plus an optional running-flag key with a TTL. -/
structure QueueState where
  waiting : List TaskDescriptor
  taskKey : Option Nat
  deriving Repr, DecidableEq

namespace QueueState

/-- Modelled from the spec: `push(task)` appends a task descriptor to the
tail of the tenant's waiting list. -/
def push (t : TaskDescriptor) (st : QueueState) : QueueState :=
  { st with waiting := st.waiting ++ [t] }

/-- Modelled from the spec: `pull_tasks(max_count)` pops up to `max_count`
tasks from the head of the list, in original insertion order. -/
def pull_tasks (maxCount : Nat) (st : QueueState) :
    List TaskDescriptor × QueueState :=
  (st.waiting.take maxCount, { st with waiting := st.waiting.drop maxCount })

/-- Modelled from the spec: `set_task_waiting_time()` refreshes the
running-flag TTL. -/
def set_task_waiting_time (ttl : Nat) (st : QueueState) : QueueState :=
  { st with taskKey := some ttl }

/-- Modelled from the spec: `delete_task_key()` clears the running-flag. -/
def delete_task_key (st : QueueState) : QueueState :=
  { st with taskKey := none }

end QueueState

/-! ## Dispatch proxy (spec §4.2) -/

/-- Billing plan tiers relevant to routing. -/
inductive CloudPlan where
  | sandbox
  | professional
  | team
  deriving Repr, DecidableEq

/-- Tenant billing features as read from the feature service. -/
structure Features where
  billing_enabled : Bool
  plan : CloudPlan
  vector_space_limit : Int
  vector_space_size : Int
  deriving Repr, DecidableEq

/-- Execution backends an indexing batch can be submitted to. -/
inductive Backend where
  | priority
  | normal
  deriving Repr, DecidableEq

/-- Result of one `DocumentIndexingTaskProxy.delay()` call: the updated
tenant queue state and the `.delay` calls made on execution backends. -/
structure ProxyResult where
  queue : QueueState
  delayCalls : List (Backend × TaskDescriptor)
  deriving Repr, DecidableEq

/-- Modelled from the spec: `DocumentIndexingTaskProxy.delay()`
(`services.document_indexing_proxy`, not in this excerpt).  Billing
disabled → submit directly to the priority backend, bypassing tenant
isolation.  Billing enabled → choose the backend by plan (sandbox →
normal, paid → priority); if the tenant's running-flag is unset, set it
with a TTL and submit immediately, otherwise push onto the waiting list
without submitting. -/
def proxyDelay (f : Features) (t : TaskDescriptor) (ttl : Nat)
    (st : QueueState) : ProxyResult :=
  if f.billing_enabled = false then
    { queue := st, delayCalls := [(Backend.priority, t)] }
  else
    let backend := if f.plan = CloudPlan.sandbox then Backend.normal else Backend.priority
    match st.taskKey with
    | some _ => { queue := st.push t, delayCalls := [] }
    | none =>
        { queue := st.set_task_waiting_time ttl, delayCalls := [(backend, t)] }

/-! ## Documents and the batch indexing task (spec §4.3) -/

/-- Persisted document row, restricted to the fields this core touches. -/
structure Doc where
  id : String
  dataset_id : String
  tenant_id : String
  indexing_status : String
  is_paused : Bool
  paused_by : Option String
  paused_at : Option Nat
  enabled : Bool
  disabled_at : Option Nat
  disabled_by : Option String
  archived : Bool
  archived_at : Option Nat
  archived_by : Option String
  error : Option String
  stopped_at : Option Nat
  processing_started_at : Option Nat
  deriving Repr, DecidableEq

/-- Dataset row, restricted to identity. -/
structure Dataset where
  id : String
  tenant_id : String
  deriving Repr, DecidableEq

/-- Configuration values read by the indexing task. -/
structure Config where
  batch_upload_limit : Nat
  tenant_isolated_task_concurrency : Nat
  deriving Repr, DecidableEq

/-- Outcome of the external indexing runner's `run` call. -/
inductive RunnerOutcome where
  | success
  | paused
  | failure (msg : String)
  deriving Repr, DecidableEq

/-- What a finished `_document_indexing` invocation left behind. -/
structure IndexingResult where
  db : List Doc
  runnerInvoked : Bool
  deriving Repr, DecidableEq

/-- How a task invocation terminates: a normal return, or an uncaught
exception escaping the task. -/
inductive TaskOutcome where
  | returned (r : IndexingResult)
  | raised (msg : String)
  deriving Repr, DecidableEq

/-- Error message recorded when the batch exceeds the upload limit. -/
def batchLimitMsg : String := "You have reached the batch upload limit"

/-- Error message recorded when a sandbox-plan tenant submits a batch. -/
def sandboxBatchMsg : String := "Your current plan does not support batch upload"

/-- Error message recorded when the vector space is over the limit. -/
def overLimitMsg : String := "Your total number of documents is over the limit of your subscription"

/-- Mark every requested existing document as failed: `indexing_status`
becomes `error`, the message is recorded and `stopped_at` is set. -/
def markError (requested : List String) (msg : String) (now : Nat)
    (db : List Doc) : List Doc :=
  db.map fun d =>
    if d.id ∈ requested then
      { d with indexing_status := "error", error := some msg, stopped_at := some now }
    else d

/-- Move every requested existing document to `parsing` and stamp
`processing_started_at`. -/
def markParsing (requested : List String) (now : Nat) (db : List Doc) :
    List Doc :=
  db.map fun d =>
    if d.id ∈ requested then
      { d with indexing_status := "parsing", processing_started_at := some now }
    else d

/-- Modelled from the spec: `_document_indexing`
(`tasks.document_indexing_task`, not in this excerpt).  Missing dataset →
silent exit.  With billing enabled, pre-flight checks in order: batch
upload limit, sandbox single-document rule, vector-space quota (`limit > 0`
and `size >= limit` rejects; `limit <= 0` is unlimited); each violation
records `error` + `stopped_at` on the requested documents and skips the
runner.  Otherwise the requested existing documents move to `parsing` with
`processing_started_at` set and the runner is invoked; a paused signal or
any other runner exception is caught and the task returns normally without
touching the statuses again. -/
def documentIndexing (cfg : Config) (f : Features) (dataset : Option Dataset)
    (db : List Doc) (requested : List String) (runner : RunnerOutcome)
    (now : Nat) : TaskOutcome :=
  match dataset with
  | none => TaskOutcome.returned { db := db, runnerInvoked := false }
  | some _ =>
    if f.billing_enabled ∧ requested.length > cfg.batch_upload_limit then
      TaskOutcome.returned
        { db := markError requested batchLimitMsg now db, runnerInvoked := false }
    else if f.billing_enabled ∧ f.plan = CloudPlan.sandbox ∧ requested.length > 1 then
      TaskOutcome.returned
        { db := markError requested sandboxBatchMsg now db, runnerInvoked := false }
    else if f.billing_enabled ∧ 0 < f.vector_space_limit ∧
        f.vector_space_limit ≤ f.vector_space_size then
      TaskOutcome.returned
        { db := markError requested overLimitMsg now db, runnerInvoked := false }
    else
      let db' := markParsing requested now db
      match runner with
      | RunnerOutcome.success => TaskOutcome.returned { db := db', runnerInvoked := true }
      | RunnerOutcome.paused => TaskOutcome.returned { db := db', runnerInvoked := true }
      | RunnerOutcome.failure _ => TaskOutcome.returned { db := db', runnerInvoked := true }

/-- How the inner indexing work of the tenant-queue wrapper behaves: a
normal run of `_document_indexing` (whose runner may succeed, pause or
fail), or the inner call itself raising before completing. -/
inductive InnerBehavior where
  | runTask (runner : RunnerOutcome)
  | raiseBefore (msg : String)
  deriving Repr, DecidableEq

/-- Result of one `_document_indexing_with_tenant_queue` invocation. -/
structure TenantQueueResult where
  db : List Doc
  queue : QueueState
  dispatched : List TaskDescriptor
  ttlRefreshes : Nat
  deletedKey : Bool
  deriving Repr, DecidableEq

/-- Dispatch each pulled follow-up task in order, refreshing the
running-flag TTL once per dispatched task. -/
def dispatchPulled (ttl : Nat) (pulled : List TaskDescriptor)
    (st : QueueState) : QueueState × List TaskDescriptor × Nat :=
  match pulled with
  | [] => (st, [], 0)
  | t :: ts =>
      let st' := st.set_task_waiting_time ttl
      let (stFin, ds, n) := dispatchPulled ttl ts st'
      (stFin, t :: ds, n + 1)

/-- Modelled from the spec: `_document_indexing_with_tenant_queue`
(`tasks.document_indexing_task`, not in this excerpt).  The inner indexing
work runs under a catch-all, and the post-processing always executes: pull
up to the configured concurrency limit of waiting tasks, dispatch each in
FIFO order refreshing the TTL per task, and delete the running-flag when
nothing was pulled. -/
def documentIndexingWithTenantQueue (cfg : Config) (f : Features)
    (dataset : Option Dataset) (db : List Doc) (requested : List String)
    (inner : InnerBehavior) (now ttl : Nat) (qs : QueueState) :
    TenantQueueResult :=
  let db' :=
    match inner with
    | InnerBehavior.runTask runner =>
        match documentIndexing cfg f dataset db requested runner now with
        | TaskOutcome.returned r => r.db
        | TaskOutcome.raised _ => db
    | InnerBehavior.raiseBefore _ => db
  let (pulled, qs1) := qs.pull_tasks cfg.tenant_isolated_task_concurrency
  if pulled.isEmpty then
    { db := db', queue := qs1.delete_task_key, dispatched := [],
      ttlRefreshes := 0, deletedKey := true }
  else
    let (qs2, ds, n) := dispatchPulled ttl pulled qs1
    { db := db', queue := qs2, dispatched := ds, ttlRefreshes := n,
      deletedKey := false }

/-! ## Document lifecycle state machine (spec §4.4) -/

/-- Domain and validation errors raised by the lifecycle service. -/
inductive ServiceError where
  | documentIndexingError (msg : String)
  | valueError (msg : String)
  deriving Repr, DecidableEq

/-- Ephemeral cache flags mirroring DB state: an association list from key
to stored value. -/
abbrev Cache : Type := List (String × String)

/-- Look a key up in the cache. -/
def cacheGet (c : Cache) (key : String) : Option String :=
  (c.find? fun kv => kv.1 == key).map Prod.snd

/-- `setnx`: set the key only when absent (idempotent at the cache layer). -/
def cacheSetnx (c : Cache) (key value : String) : Cache :=
  if (cacheGet c key).isSome then c else (key, value) :: c

/-- `setex`: set the key, overwriting any previous value. -/
def cacheSetex (c : Cache) (key value : String) : Cache :=
  (key, value) :: (c.filter fun kv => kv.1 ≠ key)

/-- `delete`: remove the key. -/
def cacheDelete (c : Cache) (key : String) : Cache :=
  c.filter fun kv => kv.1 ≠ key

/-- Cache key guarding duplicate pause requests for one document. -/
def pausedCacheKey (documentId : String) : String :=
  "document_" ++ documentId ++ "_is_paused"

/-- Cache key guarding concurrent retry requests for one document. -/
def retriedCacheKey (documentId : String) : String :=
  "document_" ++ documentId ++ "_is_retried"

/-- Cache key marking a document as currently being indexed. -/
def indexingCacheKey (documentId : String) : String :=
  "document_" ++ documentId ++ "_is_indexing"

/-- Statuses from which a document may be paused. -/
def pausableStatuses : List String := ["waiting", "parsing", "indexing"]

/-- Modelled from the spec: `DocumentService.pause_document`
(`services.dataset_service`, not in this excerpt).  Precondition
`indexing_status ∈ {waiting, parsing, indexing}`, else a
`DocumentIndexingError` with nothing mutated; on success set
`is_paused`/`paused_by`/`paused_at`, persist, and set-if-not-exists the
ephemeral paused flag.  The returned state reflects what was persisted
when the call ended, so a failed call is observably a no-op. -/
def pause_document (userId : String) (now : Nat) (doc : Doc) (cache : Cache) :
    Except ServiceError Unit × Doc × Cache :=
  if doc.indexing_status ∈ pausableStatuses then
    let doc' := { doc with is_paused := true, paused_by := some userId,
                           paused_at := some now }
    (Except.ok (), doc', cacheSetnx cache (pausedCacheKey doc.id) "True")
  else
    (Except.error (ServiceError.documentIndexingError "Document not in indexing status, cannot pause"),
     doc, cache)

/-- Modelled from the spec: `DocumentService.recover_document`
(`services.dataset_service`, not in this excerpt).  Precondition
`is_paused`, else a `DocumentIndexingError`; on success clear the pause
fields, persist, delete the ephemeral paused flag, and dispatch one
recovery-indexing task keyed by `(dataset_id, document_id)`. -/
def recover_document (doc : Doc) (cache : Cache) :
    Except ServiceError Unit × Doc × Cache × List (String × String) :=
  if doc.is_paused then
    let doc' := { doc with is_paused := false, paused_by := none, paused_at := none }
    (Except.ok (), doc', cacheDelete cache (pausedCacheKey doc.id),
     [(doc.dataset_id, doc.id)])
  else
    (Except.error (ServiceError.documentIndexingError "Document is not paused, cannot recover"),
     doc, cache, [])

/-- A retry-indexing dispatch: `(dataset_id, document_ids, user_id)`. -/
structure RetryDispatch where
  dataset_id : String
  document_ids : List String
  user_id : String
  deriving Repr, DecidableEq

/-- Check every document's ephemeral retry flag, failing on the first
conflict found. -/
def checkRetryFlags (cache : Cache) : List Doc → Except ServiceError Unit
  | [] => Except.ok ()
  | d :: ds =>
      if (cacheGet cache (retriedCacheKey d.id)).isSome then
        Except.error (ServiceError.valueError "Document is being retried, please try again later")
      else checkRetryFlags cache ds

/-- Per-document retry effect: set the retry flag with a fixed expiry and
reset the status to `waiting`, persisting as we go. -/
def applyRetry : List Doc → Cache → List Doc × Cache
  | [], cache => ([], cache)
  | d :: ds, cache =>
      let d' := { d with indexing_status := "waiting" }
      let cache' := cacheSetex cache (retriedCacheKey d.id) "1"
      let (rest, cacheFin) := applyRetry ds cache'
      (d' :: rest, cacheFin)

/-- Modelled from the spec: `DocumentService.retry_document`
(`services.dataset_service`, not in this excerpt).  Preconditions: an
authenticated current user must be present, and for every document the
ephemeral retry flag must be absent (the whole batch fails on the first
conflict found, before any effect).  Effects per document: set the retry
flag, reset `indexing_status` to `waiting`, persist; afterwards dispatch
one retry-indexing task for the whole id list plus the acting user.  The
returned state reflects whatever was persisted when the call ended, so a
failed call's persistence is observable. -/
def retry_document (datasetId : String) (userId : Option String)
    (docs : List Doc) (cache : Cache) :
    Except ServiceError Unit × List Doc × Cache × List RetryDispatch :=
  match userId with
  | none =>
      (Except.error (ServiceError.valueError "Current user or current user id not found"),
       docs, cache, [])
  | some uid =>
      match checkRetryFlags cache docs with
      | Except.error e => (Except.error e, docs, cache, [])
      | Except.ok () =>
          let (docs', cache') := applyRetry docs cache
          (Except.ok (), docs', cache',
           [{ dataset_id := datasetId, document_ids := docs.map Doc.id, user_id := uid }])

/-! ### Batch status update -/

/-- Index-maintenance dispatches fired by `batch_update_document_status`. -/
inductive IndexDispatch where
  | addToIndex (documentId : String)
  | removeFromIndex (documentId : String)
  deriving Repr, DecidableEq

/-- Error message raised when a targeted document is being indexed. -/
def beingIndexedMsg : String := "Document is being indexed, please try again later"

/-- Fetch the targeted documents of a dataset by id, silently skipping ids
with no matching row. -/
def targetedDocs (db : List Doc) (datasetId : String)
    (documentIds : List String) : List Doc :=
  documentIds.filterMap fun i =>
    db.find? fun d => d.id == i && d.dataset_id == datasetId

/-- Fail when any targeted document carries the active currently-indexing
marker. -/
def checkNotIndexing (cache : Cache) : List Doc → Except ServiceError Unit
  | [] => Except.ok ()
  | d :: ds =>
      if (cacheGet cache (indexingCacheKey d.id)).isSome then
        Except.error (ServiceError.documentIndexingError beingIndexedMsg)
      else checkNotIndexing cache ds

/-- Per-action update of one document, returning the new row and the index
dispatches it triggers. -/
def applyAction (action : String) (userId : String) (now : Nat) (d : Doc) :
    Doc × List IndexDispatch :=
  if action = "enable" then
    if d.enabled then (d, [])
    else ({ d with enabled := true }, [IndexDispatch.addToIndex d.id])
  else if action = "disable" then
    ({ d with enabled := false, disabled_at := some now, disabled_by := some userId },
     [IndexDispatch.removeFromIndex d.id])
  else if action = "archive" then
    ({ d with archived := true, archived_at := some now, archived_by := some userId },
     if d.enabled then [IndexDispatch.removeFromIndex d.id] else [])
  else
    ({ d with archived := false, archived_at := none, archived_by := none },
     if d.enabled then [IndexDispatch.addToIndex d.id] else [])

/-- Write an updated row back over the row with the same id. -/
def writeBack (db : List Doc) (d : Doc) : List Doc :=
  db.map fun x => if x.id == d.id then d else x

/-- Apply the action to every targeted document in one transaction. -/
def applyAll (action : String) (userId : String) (now : Nat) :
    List Doc → List Doc → List Doc × List IndexDispatch
  | db, [] => (db, [])
  | db, d :: ds =>
      let (d', fires) := applyAction action userId now d
      let (dbFin, rest) := applyAll action userId now (writeBack db d') ds
      (dbFin, fires ++ rest)

/-- Modelled from the spec: `DocumentService.batch_update_document_status`
(`services.dataset_service`, not in this excerpt).  Unknown action → a
validation error immediately; empty id list → no-op; then an all-or-nothing
precondition check that no targeted document carries the active
currently-indexing marker, raising a domain error mentioning "being
indexed" before any mutation; otherwise the per-action effects are applied
to all targeted documents in one transaction with the corresponding index
dispatches.  The returned database reflects whatever was committed when
the call ended. -/
def batch_update_document_status (db : List Doc) (cache : Cache)
    (datasetId : String) (documentIds : List String) (action : String)
    (userId : String) (now : Nat) :
    Except ServiceError Unit × List Doc × List IndexDispatch :=
  if ¬ (action ∈ ["enable", "disable", "archive", "un_archive"]) then
    (Except.error (ServiceError.valueError ("Invalid action: " ++ action)), db, [])
  else if documentIds.isEmpty then
    (Except.ok (), db, [])
  else
    let targets := targetedDocs db datasetId documentIds
    match checkNotIndexing cache targets with
    | Except.error e => (Except.error e, db, [])
    | Except.ok () =>
        let (db', fires) := applyAll action userId now db targets
        (Except.ok (), db', fires)

/-! ## Datasource streaming bridge
(`api/core/datasource/datasource_manager.py`) -/

/-- `DatasourceProviderType` values. -/
inductive DatasourceProviderType where
  | onlineDocument
  | onlineDrive
  | websiteCrawl
  | localFile
  deriving Repr, DecidableEq

/-- `DatasourceMessage.MessageType` values dispatched on by the bridge;
`blob` stands for the remaining message types, which fall into the final
ignored branch. -/
inductive MessageType where
  | text
  | link
  | varMsg
  | image
  | imageLink
  | binaryLink
  | file
  | blob
  deriving Repr, DecidableEq

/-- A variable value carried by a `VariableMessage`: a string, or any
non-string Python value (tagged). -/
inductive VarValue where
  | vstr (s : String)
  | vother (tag : Nat)
  deriving Repr, DecidableEq

/-- The `message` payload of a `DatasourceMessage`. -/
inductive DSPayload where
  | textMessage (text : String)
  | variableMessage (name : String) (value : VarValue) (stream : Bool)
  | otherPayload
  deriving Repr, DecidableEq

/-- The file handle kept as the node's output file.  The source builds it
through the external `file_factory` from the mapping
`{tool_file_id, type, transfer_method, url}`; the mime-to-type conversion
lives outside this excerpt, so the mime type is carried as-is. -/
structure ToolFileRef where
  tool_file_id : String
  mime_type : String
  url : String
  deriving Repr, DecidableEq

/-- A `DatasourceMessage`: type, payload, and the `meta` mapping.  `meta`
is `none` when the Python `meta` is absent/falsy; otherwise the inner
option is the result of `meta.get("file")` checked with
`isinstance(f, File)`. -/
structure DSMessage where
  type : MessageType
  message : DSPayload
  meta : Option (Option ToolFileRef)
  deriving Repr, DecidableEq

/-- A persisted `ToolFile` row, restricted to the columns the bridge
reads. -/
structure ToolFileRow where
  id : String
  tenant_id : String
  mimetype : String
  deriving Repr, DecidableEq

/-- A persisted `UploadFile` row, restricted to the columns the bridge
reads. -/
structure UploadFileRow where
  id : String
  tenant_id : String
  name : String
  extension : String
  mime_type : String
  size : Nat
  key : String
  source_url : String
  deriving Repr, DecidableEq

/-- The workflow `File` value built by `get_upload_file_by_id`. -/
structure WorkflowFile where
  id : String
  filename : String
  extension : String
  mime_type : String
  tenant_id : String
  transfer_method : String
  remote_url : String
  related_id : String
  size : Nat
  storage_key : String
  url : String
  deriving Repr, DecidableEq

/-- Workflow stream events yielded by `stream_node_events`.  The two
completion constructors mirror the two `StreamCompletedEvent` shapes: the
online-document one carries the accumulated variables as outputs, the
other carries the resolved file (if any). -/
inductive NodeEvent where
  | chunk (selector : List String) (chunk : String) (isFinal : Bool)
  | completedDocument (outputs : List (String × VarValue))
  | completedDrive (file : Option ToolFileRef)
  deriving Repr, DecidableEq

/-- Python `str.split(sep)` for a one-character separator, on the char
list: splits at every occurrence, keeping empty segments, and never
returns an empty list. -/
def splitChars (sep : Char) : List Char → List (List Char)
  | [] => [[]]
  | c :: cs =>
      let rest := splitChars sep cs
      if c = sep then [] :: rest
      else
        match rest with
        | [] => [[c]]
        | g :: gs => (c :: g) :: gs

/-- `str(url).split("/")[-1].split(".")[0]`: the URL's last path segment
stripped of its extension. -/
def extractFileId (url : String) : String :=
  ⟨(splitChars '.' ((splitChars '/' url.data).getLastD [])).headD []⟩

/-- Python dict write `variables[name] = value`: replace in place when the
key exists, else append (insertion order preserved). -/
def dictSet : List (String × VarValue) → String → VarValue →
    List (String × VarValue)
  | [], n, v => [(n, v)]
  | (k, w) :: rest, n, v =>
      if k == n then (k, v) :: rest else (k, w) :: dictSet rest n v

/-- Python dict read `variables.get(name)`. -/
def dictGet (vars : List (String × VarValue)) (n : String) : Option VarValue :=
  (vars.find? fun kv => kv.1 == n).map Prod.snd

/-- Loop state of `stream_node_events`: the variable accumulator, the
current output file, and the chunk events yielded so far. -/
structure StreamState where
  vars : List (String × VarValue)
  fileOut : Option ToolFileRef
  events : List NodeEvent
  deriving Repr, DecidableEq

/-- One iteration of the message loop in
`DatasourceManager.stream_node_events` (lines 254-311 of
`datasource_manager.py`), faithful to the branch order of the source.
Errors are the exceptions the loop body can raise: the ToolFile-not-found
`ValueError`, the failing `assert isinstance` checks, and the `TypeError`
from concatenating onto a non-string accumulator value. -/
def processMessage (dsType : DatasourceProviderType) (nodeId tenantId : String)
    (toolFiles : List ToolFileRow) (st : StreamState) (message : DSMessage) :
    Except String StreamState :=
  if message.type = MessageType.imageLink ∨ message.type = MessageType.binaryLink ∨
      message.type = MessageType.image then
    let wanted := dsType = DatasourceProviderType.onlineDrive ∨
      dsType = DatasourceProviderType.onlineDocument
    match message.message with
    | DSPayload.textMessage url =>
        if wanted then
          let fid := extractFileId url
          match toolFiles.find? fun r => r.id == fid && r.tenant_id == tenantId with
          | none =>
              Except.error ("ToolFile not found for file_id=" ++ fid ++
                ", tenant_id=" ++ tenantId)
          | some row =>
              let f : ToolFileRef :=
                { tool_file_id := fid, mime_type := row.mimetype, url := url }
              Except.ok { st with fileOut := some f }
        else Except.ok st
    | _ => Except.ok st
  else if message.type = MessageType.text then
    match message.message with
    | DSPayload.textMessage t =>
        Except.ok { st with events :=
          st.events ++ [NodeEvent.chunk [nodeId, "text"] t false] }
    | _ => Except.error "assert isinstance TextMessage"
  else if message.type = MessageType.link then
    match message.message with
    | DSPayload.textMessage t =>
        Except.ok { st with events :=
          st.events ++ [NodeEvent.chunk [nodeId, "text"] ("Link: " ++ t ++ "\n") false] }
    | _ => Except.error "assert isinstance TextMessage"
  else if message.type = MessageType.varMsg then
    match message.message with
    | DSPayload.variableMessage name value stream =>
        if stream then
          match value with
          | VarValue.vstr v =>
              match dictGet st.vars name with
              | some (VarValue.vother _) =>
                  Except.error "TypeError: can only concatenate str"
              | some (VarValue.vstr prev) =>
                  Except.ok { st with
                    vars := dictSet st.vars name (VarValue.vstr (prev ++ v)),
                    events := st.events ++ [NodeEvent.chunk [nodeId, name] v false] }
              | none =>
                  Except.ok { st with
                    vars := dictSet st.vars name (VarValue.vstr v),
                    events := st.events ++ [NodeEvent.chunk [nodeId, name] v false] }
          | VarValue.vother _ => Except.error "stream variable_value must be str"
        else
          Except.ok { st with vars := dictSet st.vars name value }
    | _ => Except.error "assert isinstance VariableMessage"
  else if message.type = MessageType.file then
    if dsType = DatasourceProviderType.onlineDrive then
      match message.meta with
      | some (some f) => Except.ok { st with fileOut := some f }
      | _ => Except.ok st
    else Except.ok st
  else
    Except.ok st

/-- Fold `processMessage` across the transformed message stream. -/
def processMessages (dsType : DatasourceProviderType) (nodeId tenantId : String)
    (toolFiles : List ToolFileRow) (st : StreamState) :
    List DSMessage → Except String StreamState
  | [] => Except.ok st
  | m :: ms =>
      match processMessage dsType nodeId tenantId toolFiles st m with
      | Except.error e => Except.error e
      | Except.ok st' => processMessages dsType nodeId tenantId toolFiles st' ms

/-- The full result of `stream_node_events`: yielded events plus the
`variable_pool.add` calls made for the resolved drive file. -/
structure StreamRunResult where
  events : List NodeEvent
  poolAdds : List (List String × ToolFileRef)
  deriving Repr, DecidableEq

/-- `DatasourceManager.stream_node_events` (lines 213-338 of
`datasource_manager.py`).  The transformed message stream is taken as
input (the plugin runtime and the `DatasourceFileMessageTransformer` are
external collaborators).  Non-streamable datasource types raise before any
message is consumed, as in `stream_online_results`.  After the loop:
always one final empty text chunk with `is_final=True`, then the
drive-file pool add, then the completion event whose shape depends on the
datasource kind. -/
def stream_node_events (dsType : DatasourceProviderType)
    (nodeId tenantId : String) (toolFiles : List ToolFileRow)
    (messages : List DSMessage) : Except String StreamRunResult :=
  if ¬ (dsType = DatasourceProviderType.onlineDocument ∨
      dsType = DatasourceProviderType.onlineDrive) then
    Except.error "Unsupported datasource type for streaming"
  else
    match processMessages dsType nodeId tenantId toolFiles
        { vars := [], fileOut := none, events := [] } messages with
    | Except.error e => Except.error e
    | Except.ok st =>
        let withFinal := st.events ++ [NodeEvent.chunk [nodeId, "text"] "" true]
        let poolAdds :=
          if dsType = DatasourceProviderType.onlineDrive then
            match st.fileOut with
            | some f => [([nodeId, "file"], f)]
            | none => []
          else []
        if dsType = DatasourceProviderType.onlineDocument then
          Except.ok { events := withFinal ++ [NodeEvent.completedDocument st.vars],
                      poolAdds := poolAdds }
        else
          Except.ok { events := withFinal ++ [NodeEvent.completedDrive st.fileOut],
                      poolAdds := poolAdds }

/-- `DatasourceManager.get_upload_file_by_id` (lines 340-363 of
`datasource_manager.py`): the `UploadFile` row must match both the file id
and the tenant id, else a not-found `ValueError`. -/
def get_upload_file_by_id (uploadFiles : List UploadFileRow)
    (fileId tenantId : String) : Except String WorkflowFile :=
  match uploadFiles.find? fun r => r.id == fileId && r.tenant_id == tenantId with
  | none =>
      Except.error ("UploadFile not found for file_id=" ++ fileId ++
        ", tenant_id=" ++ tenantId)
  | some u =>
      Except.ok
        { id := u.id, filename := u.name, extension := "." ++ u.extension,
          mime_type := u.mime_type, tenant_id := tenantId,
          transfer_method := "local_file", remote_url := u.source_url,
          related_id := u.id, size := u.size, storage_key := u.key,
          url := u.source_url }

/-! ## Fixtures and derived notions used by the statements -/

/-- Fixture: a document row with the given identity and status, every
other field at its initial value. -/
def mkDoc (id dataset_id tenant_id status : String) : Doc :=
  { id := id, dataset_id := dataset_id, tenant_id := tenant_id,
    indexing_status := status, is_paused := false, paused_by := none,
    paused_at := none, enabled := true, disabled_at := none,
    disabled_by := none, archived := false, archived_at := none,
    archived_by := none, error := none, stopped_at := none,
    processing_started_at := none }

/-- A streamed string VARIABLE message, the shape of the spec's streaming
scenario. -/
def streamedVar (n v : String) : DSMessage :=
  { type := MessageType.varMsg,
    message := DSPayload.variableMessage n (VarValue.vstr v) true,
    meta := none }

/-- Concatenation of a list of strings in order. -/
def concatAll : List String → String
  | [] => ""
  | s :: ss => s ++ concatAll ss

/-- Is an event a final text chunk? -/
def isFinalChunk : NodeEvent → Bool
  | NodeEvent.chunk _ _ true => true
  | _ => false

/-- The string content of an accumulator slot, with `""` for an absent
slot (mirroring `variables.get(name, "")`). -/
def strVal : Option VarValue → String
  | some (VarValue.vstr s) => s
  | _ => ""

/-! ## Theorems -/

/-- Each pulled follow-up task is dispatched in order with one TTL refresh
per task. -/
theorem dispatchPulled_spec (ttl : Nat) :
    ∀ (ps : List TaskDescriptor) (st : QueueState),
      (dispatchPulled ttl ps st).2.1 = ps ∧
      (dispatchPulled ttl ps st).2.2 = ps.length := by
  intro ps
  induction ps with
  | nil => intro st; simp [dispatchPulled]
  | cons t ts ih =>
      intro st
      obtain ⟨h1, h2⟩ := ih (st.set_task_waiting_time ttl)
      rcases hd : dispatchPulled ttl ts (st.set_task_waiting_time ttl) with ⟨stFin, ds, n⟩
      rw [hd] at h1 h2
      simp at h1 h2
      simp [dispatchPulled, hd, h1, h2]

/-- C1: the tenant-queue wrapper's post-processing always runs, whatever
the inner indexing work did: it pulls up to the configured concurrency
limit of waiting tasks, dispatches each pulled task in original FIFO order
with one running-flag TTL refresh per dispatched task, and deletes the
running-flag exactly when nothing was pulled. -/
theorem tenant_queue_postprocessing (cfg : Config) (f : Features)
    (dataset : Option Dataset) (db : List Doc) (requested : List String)
    (inner : InnerBehavior) (now ttl : Nat) (qs : QueueState) :
    (documentIndexingWithTenantQueue cfg f dataset db requested inner now ttl qs).dispatched =
      qs.waiting.take cfg.tenant_isolated_task_concurrency ∧
    (documentIndexingWithTenantQueue cfg f dataset db requested inner now ttl qs).ttlRefreshes =
      (qs.waiting.take cfg.tenant_isolated_task_concurrency).length ∧
    ((documentIndexingWithTenantQueue cfg f dataset db requested inner now ttl qs).deletedKey =
        true ↔
      qs.waiting.take cfg.tenant_isolated_task_concurrency = []) ∧
    (qs.waiting.take cfg.tenant_isolated_task_concurrency = [] →
      (documentIndexingWithTenantQueue cfg f dataset db requested inner now ttl qs).queue.taskKey =
        none) := by
  by_cases hp : qs.waiting.take cfg.tenant_isolated_task_concurrency = []
  · simp [documentIndexingWithTenantQueue, QueueState.pull_tasks,
      QueueState.delete_task_key, hp]
  · have hne : (qs.waiting.take cfg.tenant_isolated_task_concurrency).isEmpty = false := by
      simpa [List.isEmpty_iff] using hp
    obtain ⟨h1, h2⟩ := dispatchPulled_spec ttl
      (qs.waiting.take cfg.tenant_isolated_task_concurrency)
      { qs with waiting := qs.waiting.drop cfg.tenant_isolated_task_concurrency }
    rcases hd : dispatchPulled ttl (qs.waiting.take cfg.tenant_isolated_task_concurrency)
        { qs with waiting := qs.waiting.drop cfg.tenant_isolated_task_concurrency } with
      ⟨stFin, ds, n⟩
    rw [hd] at h1 h2
    simp at h1 h2
    simp [documentIndexingWithTenantQueue, QueueState.pull_tasks, hne, hd, h1, h2, hp]

/-- C1 witness: post-processing at a concrete input — an empty backlog
behind a failing inner run deletes the running-flag. -/
theorem tenant_queue_postprocessing_witness :
    (documentIndexingWithTenantQueue
        { batch_upload_limit := 10, tenant_isolated_task_concurrency := 2 }
        { billing_enabled := false, plan := CloudPlan.professional,
          vector_space_limit := 0, vector_space_size := 0 }
        none [] [] (InnerBehavior.raiseBefore "boom") 0 90
        { waiting := [], taskKey := some 1 }).queue.taskKey = none :=
  (tenant_queue_postprocessing _ _ none [] [] _ 0 90 _).2.2.2 rfl

/-- C2: routing of `DocumentIndexingTaskProxy.delay()`: billing disabled →
the batch goes straight to the priority backend's `.delay`, untouched
queue state; billing enabled with the running-flag already set → the task
descriptor is pushed onto the waiting list and no backend `.delay` is
called; billing enabled with no flag → the flag is set with a TTL and the
plan-chosen backend's `.delay` is called immediately. -/
theorem proxy_delay_routing (f : Features) (t : TaskDescriptor) (ttl : Nat)
    (st : QueueState) :
    (f.billing_enabled = false →
      proxyDelay f t ttl st =
        { queue := st, delayCalls := [(Backend.priority, t)] }) ∧
    (f.billing_enabled = true → st.taskKey.isSome →
      (proxyDelay f t ttl st).queue.waiting = st.waiting ++ [t] ∧
      (proxyDelay f t ttl st).queue.taskKey = st.taskKey ∧
      (proxyDelay f t ttl st).delayCalls = []) ∧
    (f.billing_enabled = true → st.taskKey = none →
      (proxyDelay f t ttl st).queue.taskKey = some ttl ∧
      (proxyDelay f t ttl st).queue.waiting = st.waiting ∧
      (proxyDelay f t ttl st).delayCalls =
        [(if f.plan = CloudPlan.sandbox then Backend.normal else Backend.priority, t)]) := by
  refine ⟨fun hb => ?_, fun hb hk => ?_, fun hb hk => ?_⟩
  · simp [proxyDelay, hb]
  · rcases hsome : st.taskKey with _ | k
    · rw [hsome] at hk; simp at hk
    · simp [proxyDelay, hb, hsome, QueueState.push]
  · simp [proxyDelay, hb, hk, QueueState.set_task_waiting_time]

/-- C2 witness: the three routing scenarios at concrete inputs. -/
theorem proxy_delay_routing_witness :
    (proxyDelay
        { billing_enabled := false, plan := CloudPlan.professional,
          vector_space_limit := 0, vector_space_size := 0 }
        { tenant_id := "t", dataset_id := "d", document_ids := ["x"] } 60
        { waiting := [], taskKey := none } =
      { queue := { waiting := [], taskKey := none },
        delayCalls :=
          [(Backend.priority,
            { tenant_id := "t", dataset_id := "d", document_ids := ["x"] })] }) ∧
    ((proxyDelay
        { billing_enabled := true, plan := CloudPlan.professional,
          vector_space_limit := 0, vector_space_size := 0 }
        { tenant_id := "t", dataset_id := "d", document_ids := ["x"] } 60
        { waiting := [], taskKey := some 5 }).delayCalls = []) ∧
    ((proxyDelay
        { billing_enabled := true, plan := CloudPlan.professional,
          vector_space_limit := 0, vector_space_size := 0 }
        { tenant_id := "t", dataset_id := "d", document_ids := ["x"] } 60
        { waiting := [], taskKey := none }).queue.taskKey = some 60) :=
  ⟨(proxy_delay_routing _ _ _ _).1 rfl,
   ((proxy_delay_routing _ _ _ _).2.1 rfl (by decide)).2.2,
   ((proxy_delay_routing _ _ _ _).2.2 rfl rfl).1⟩

/-- C3: when the validation gates pass, every runner outcome — success, a
"document is paused" signal, or any other exception — leaves the task
returning normally (nothing propagates), and for the paused and failing
outcomes the targeted documents stay in `parsing` with
`processing_started_at` stamped, never overwritten to `error`. -/
theorem runner_exception_caught (cfg : Config) (f : Features) (ds : Dataset)
    (db : List Doc) (requested : List String) (now : Nat) (msg : String)
    (h1 : ¬(f.billing_enabled = true ∧ requested.length > cfg.batch_upload_limit))
    (h2 : ¬(f.billing_enabled = true ∧ f.plan = CloudPlan.sandbox ∧
        requested.length > 1))
    (h3 : ¬(f.billing_enabled = true ∧ 0 < f.vector_space_limit ∧
        f.vector_space_limit ≤ f.vector_space_size)) :
    (∀ runner, ∃ r, documentIndexing cfg f (some ds) db requested runner now =
        TaskOutcome.returned r) ∧
    documentIndexing cfg f (some ds) db requested RunnerOutcome.paused now =
      TaskOutcome.returned
        { db := markParsing requested now db, runnerInvoked := true } ∧
    documentIndexing cfg f (some ds) db requested (RunnerOutcome.failure msg) now =
      TaskOutcome.returned
        { db := markParsing requested now db, runnerInvoked := true } ∧
    (∀ d ∈ markParsing requested now db, d.id ∈ requested →
      d.indexing_status = "parsing" ∧ d.processing_started_at = some now ∧
      d.indexing_status ≠ "error") := by
  refine ⟨fun runner => ?_, ?_, ?_, ?_⟩
  · cases runner <;> simp [documentIndexing, h1, h2, h3]
  · simp [documentIndexing, h1, h2, h3]
  · simp [documentIndexing, h1, h2, h3]
  · intro d hd hid
    obtain ⟨d0, hd0, rfl⟩ := List.mem_map.mp hd
    by_cases h : d0.id ∈ requested
    · simp [h]
    · simp [h] at hid

/-- C3 witness: a failing runner on a one-document batch with billing
disabled returns normally with the document parsing. -/
theorem runner_exception_caught_witness :
    documentIndexing
        { batch_upload_limit := 10, tenant_isolated_task_concurrency := 3 }
        { billing_enabled := false, plan := CloudPlan.professional,
          vector_space_limit := 100, vector_space_size := 100 }
        (some { id := "ds", tenant_id := "t" })
        [mkDoc "d1" "ds" "t" "waiting"] ["d1"]
        (RunnerOutcome.failure "runner failed") 7 =
      TaskOutcome.returned
        { db := markParsing ["d1"] 7 [mkDoc "d1" "ds" "t" "waiting"],
          runnerInvoked := true } :=
  (runner_exception_caught _ _ _ _ _ _ "runner failed"
    (by decide) (by decide) (by decide)).2.2.1

/-- C4: with billing enabled and the earlier gates passing, a positive
vector-space limit that the size has reached marks every targeted existing
document `error` with the over-the-limit message and `stopped_at` set and
never invokes the runner, while a zero or negative limit skips the quota
check entirely: the documents proceed to `parsing` and the runner runs. -/
theorem vector_space_quota (cfg : Config) (f : Features) (ds : Dataset)
    (db : List Doc) (requested : List String) (now : Nat)
    (runner : RunnerOutcome)
    (hb : f.billing_enabled = true)
    (h1 : ¬ requested.length > cfg.batch_upload_limit)
    (h2 : ¬ (f.plan = CloudPlan.sandbox ∧ requested.length > 1)) :
    (0 < f.vector_space_limit → f.vector_space_limit ≤ f.vector_space_size →
      documentIndexing cfg f (some ds) db requested runner now =
        TaskOutcome.returned
          { db := markError requested overLimitMsg now db,
            runnerInvoked := false } ∧
      ∀ d ∈ markError requested overLimitMsg now db, d.id ∈ requested →
        d.indexing_status = "error" ∧ d.error = some overLimitMsg ∧
        d.stopped_at = some now) ∧
    (f.vector_space_limit ≤ 0 →
      documentIndexing cfg f (some ds) db requested runner now =
        TaskOutcome.returned
          { db := markParsing requested now db, runnerInvoked := true } ∧
      ∀ d ∈ markParsing requested now db, d.id ∈ requested →
        d.indexing_status = "parsing") := by
  constructor
  · intro hl hs
    constructor
    · simp [documentIndexing, hb, h1, h2, hl, hs]
    · intro d hd hid
      obtain ⟨d0, hd0, rfl⟩ := List.mem_map.mp hd
      by_cases h : d0.id ∈ requested
      · simp [h]
      · simp [h] at hid
  · intro hl
    have hq : ¬ (0 < f.vector_space_limit ∧
        f.vector_space_limit ≤ f.vector_space_size) := by
      rintro ⟨hpos, _⟩; omega
    constructor
    · cases runner <;> simp [documentIndexing, hb, h1, h2, hq]
    · intro d hd hid
      obtain ⟨d0, hd0, rfl⟩ := List.mem_map.mp hd
      by_cases h : d0.id ∈ requested
      · simp [h]
      · simp [h] at hid

/-- C4 witness: limit 100 reached by size 100 rejects with the
over-the-limit error, at a concrete one-document batch. -/
theorem vector_space_quota_witness :
    documentIndexing
        { batch_upload_limit := 10, tenant_isolated_task_concurrency := 3 }
        { billing_enabled := true, plan := CloudPlan.professional,
          vector_space_limit := 100, vector_space_size := 100 }
        (some { id := "ds", tenant_id := "t" })
        [mkDoc "d1" "ds" "t" "waiting"] ["d1"] RunnerOutcome.success 7 =
      TaskOutcome.returned
        { db := markError ["d1"] overLimitMsg 7 [mkDoc "d1" "ds" "t" "waiting"],
          runnerInvoked := false } :=
  ((vector_space_quota _ _ _ _ _ _ RunnerOutcome.success rfl (by decide)
    (by decide)).1 (by decide) (by decide)).1

/-- Deleting a cache key makes it unreadable. -/
theorem cacheGet_delete (c : Cache) (k : String) :
    cacheGet (cacheDelete c k) k = none := by
  simp only [cacheGet, cacheDelete, Option.map_eq_none']
  apply List.find?_eq_none.mpr
  intro x hx
  have hx2 := (List.mem_filter.mp hx).2
  simpa using hx2

/-- C5: `pause_document` fails with a `DocumentIndexingError` exactly when
the document is not in a pausable status, leaving the document (and in
particular `is_paused`) untouched; otherwise it persists
`is_paused=True`, `paused_by=<current user>`, `paused_at=now`. -/
theorem pause_document_spec (userId : String) (now : Nat) (doc : Doc)
    (cache : Cache) :
    ((∃ m, (pause_document userId now doc cache).1 =
        Except.error (ServiceError.documentIndexingError m)) ↔
      ¬ (doc.indexing_status = "waiting" ∨ doc.indexing_status = "parsing" ∨
         doc.indexing_status = "indexing")) ∧
    (¬ (doc.indexing_status = "waiting" ∨ doc.indexing_status = "parsing" ∨
        doc.indexing_status = "indexing") →
      (pause_document userId now doc cache).2.1 = doc ∧
      (pause_document userId now doc cache).2.2 = cache) ∧
    ((doc.indexing_status = "waiting" ∨ doc.indexing_status = "parsing" ∨
        doc.indexing_status = "indexing") →
      (pause_document userId now doc cache).1 = Except.ok () ∧
      (pause_document userId now doc cache).2.1 =
        { doc with is_paused := true, paused_by := some userId,
                   paused_at := some now }) := by
  by_cases h : doc.indexing_status ∈ pausableStatuses
  · have h' : doc.indexing_status = "waiting" ∨ doc.indexing_status = "parsing" ∨
        doc.indexing_status = "indexing" := by
      simpa [pausableStatuses] using h
    simp [pause_document, h, h']
  · have h' : ¬ (doc.indexing_status = "waiting" ∨ doc.indexing_status = "parsing" ∨
        doc.indexing_status = "indexing") := by
      simpa [pausableStatuses] using h
    simp [pause_document, h, h']

/-- C5 witness: pausing a completed document fails and mutates nothing;
pausing a waiting document succeeds. -/
theorem pause_document_spec_witness :
    ((pause_document "u1" 9 (mkDoc "d1" "ds" "t" "completed") []).2.1 =
      mkDoc "d1" "ds" "t" "completed") ∧
    ((pause_document "u1" 9 (mkDoc "d1" "ds" "t" "waiting")
        []).2.1.is_paused = true) :=
  ⟨((pause_document_spec "u1" 9 (mkDoc "d1" "ds" "t" "completed") []).2.1
      (by decide)).1,
   by
     have h := ((pause_document_spec "u1" 9 (mkDoc "d1" "ds" "t" "waiting")
        []).2.2 (by decide)).2
     rw [h]⟩

/-- C6: pausing a document in a pausable state and then recovering it
succeeds, restores `is_paused` to `False` and `paused_by`/`paused_at` to
`None`, deletes the ephemeral paused cache flag, and dispatches exactly
one recovery-indexing task keyed by `(dataset_id, document_id)`. -/
theorem pause_then_recover (userId : String) (now : Nat) (doc : Doc)
    (cache : Cache)
    (h : doc.indexing_status = "waiting" ∨ doc.indexing_status = "parsing" ∨
         doc.indexing_status = "indexing") :
    (recover_document (pause_document userId now doc cache).2.1
        (pause_document userId now doc cache).2.2).1 = Except.ok () ∧
    (recover_document (pause_document userId now doc cache).2.1
        (pause_document userId now doc cache).2.2).2.1.is_paused = false ∧
    (recover_document (pause_document userId now doc cache).2.1
        (pause_document userId now doc cache).2.2).2.1.paused_by = none ∧
    (recover_document (pause_document userId now doc cache).2.1
        (pause_document userId now doc cache).2.2).2.1.paused_at = none ∧
    cacheGet (recover_document (pause_document userId now doc cache).2.1
        (pause_document userId now doc cache).2.2).2.2.1
      (pausedCacheKey doc.id) = none ∧
    (recover_document (pause_document userId now doc cache).2.1
        (pause_document userId now doc cache).2.2).2.2.2 =
      [(doc.dataset_id, doc.id)] := by
  have hp : doc.indexing_status ∈ pausableStatuses := by
    simpa [pausableStatuses] using h
  simp [pause_document, hp, recover_document, cacheGet_delete]

/-- C6 witness: the round trip at a concrete waiting document. -/
theorem pause_then_recover_witness :
    (recover_document
        (pause_document "u1" 9 (mkDoc "d1" "ds" "t" "waiting") []).2.1
        (pause_document "u1" 9 (mkDoc "d1" "ds" "t" "waiting") []).2.2).2.2.2 =
      [("ds", "d1")] :=
  (pause_then_recover "u1" 9 (mkDoc "d1" "ds" "t" "waiting") []
    (by decide)).2.2.2.2.2

/-- A batch with any already-flagged document fails the retry-flag check
with the concurrent-retry validation error. -/
theorem checkRetryFlags_conflict (cache : Cache) :
    ∀ docs : List Doc,
      (∃ d ∈ docs, (cacheGet cache (retriedCacheKey d.id)).isSome) →
      checkRetryFlags cache docs =
        Except.error (ServiceError.valueError
          "Document is being retried, please try again later") := by
  intro docs
  induction docs with
  | nil => rintro ⟨d, hd, _⟩; simp at hd
  | cons d ds ih =>
      rintro ⟨d', hd', hflag⟩
      by_cases hf : (cacheGet cache (retriedCacheKey d.id)).isSome
      · simp [checkRetryFlags, hf]
      · rcases List.mem_cons.mp hd' with he | hm
        · subst he; exact absurd hflag hf
        · simpa [checkRetryFlags, hf] using ih ⟨d', hm, hflag⟩

/-- C7: a `retry_document` call in which any document of the batch already
carries the ephemeral retry flag fails with the validation error and is a
no-op: every document's `indexing_status` is unchanged, the cache is
unchanged, and no retry task is dispatched. -/
theorem retry_document_conflict (datasetId uid : String) (docs : List Doc)
    (cache : Cache)
    (h : ∃ d ∈ docs, (cacheGet cache (retriedCacheKey d.id)).isSome) :
    retry_document datasetId (some uid) docs cache =
      (Except.error (ServiceError.valueError
          "Document is being retried, please try again later"),
       docs, cache, []) := by
  simp [retry_document, checkRetryFlags_conflict cache docs h]

/-- C7 witness: a two-document batch whose second document is flagged
fails and leaves both documents untouched. -/
theorem retry_document_conflict_witness :
    retry_document "ds" (some "u1")
        [mkDoc "d1" "ds" "t" "error", mkDoc "d2" "ds" "t" "error"]
        [("document_d2_is_retried", "1")] =
      (Except.error (ServiceError.valueError
          "Document is being retried, please try again later"),
       [mkDoc "d1" "ds" "t" "error", mkDoc "d2" "ds" "t" "error"],
       [("document_d2_is_retried", "1")], []) :=
  retry_document_conflict "ds" "u1" _ _
    ⟨mkDoc "d2" "ds" "t" "error", by decide, by decide⟩

/-- A target list with any currently-indexing document fails the
all-or-nothing precondition check with the being-indexed domain error. -/
theorem checkNotIndexing_conflict (cache : Cache) :
    ∀ targets : List Doc,
      (∃ d ∈ targets, (cacheGet cache (indexingCacheKey d.id)).isSome) →
      checkNotIndexing cache targets =
        Except.error (ServiceError.documentIndexingError beingIndexedMsg) := by
  intro targets
  induction targets with
  | nil => rintro ⟨d, hd, _⟩; simp at hd
  | cons d ds ih =>
      rintro ⟨d', hd', hflag⟩
      by_cases hf : (cacheGet cache (indexingCacheKey d.id)).isSome
      · simp [checkNotIndexing, hf]
      · rcases List.mem_cons.mp hd' with he | hm
        · subst he; exact absurd hflag hf
        · simpa [checkNotIndexing, hf] using ih ⟨d', hm, hflag⟩

/-- C8: a `batch_update_document_status` call in which any targeted
document carries the active currently-indexing marker raises the domain
error mentioning "being indexed" before any mutation: the database is
returned unchanged and no index-maintenance task is dispatched, even for
documents that would individually have been eligible. -/
theorem batch_update_indexing_guard (db : List Doc) (cache : Cache)
    (datasetId : String) (documentIds : List String)
    (action userId : String) (now : Nat)
    (hAct : action ∈ ["enable", "disable", "archive", "un_archive"])
    (h : ∃ d ∈ targetedDocs db datasetId documentIds,
        (cacheGet cache (indexingCacheKey d.id)).isSome) :
    batch_update_document_status db cache datasetId documentIds action
        userId now =
      (Except.error (ServiceError.documentIndexingError beingIndexedMsg),
       db, []) ∧
    beingIndexedMsg =
      "Document is " ++ "being indexed" ++ ", please try again later" := by
  refine ⟨?_, by decide⟩
  cases documentIds with
  | nil =>
      obtain ⟨d, hd, _⟩ := h
      simp [targetedDocs] at hd
  | cons i is =>
      simp [batch_update_document_status, hAct,
        checkNotIndexing_conflict cache _ h]

/-- C8 witness: a batch of two documents, one flagged as indexing, is
rejected whole at a concrete input. -/
theorem batch_update_indexing_guard_witness :
    batch_update_document_status
        [mkDoc "d1" "ds" "t" "completed", mkDoc "d2" "ds" "t" "completed"]
        [("document_d1_is_indexing", "1")] "ds" ["d1", "d2"] "enable" "u1" 9 =
      (Except.error (ServiceError.documentIndexingError beingIndexedMsg),
       [mkDoc "d1" "ds" "t" "completed", mkDoc "d2" "ds" "t" "completed"],
       []) :=
  (batch_update_indexing_guard _ _ "ds" ["d1", "d2"] "enable" "u1" 9
    (by decide)
    ⟨mkDoc "d1" "ds" "t" "completed", by decide, by decide⟩).1

/-- Writing a name makes it readable. -/
theorem dictGet_dictSet_self (v : List (String × VarValue)) (n : String)
    (x : VarValue) : dictGet (dictSet v n x) n = some x := by
  induction v with
  | nil => simp [dictSet, dictGet]
  | cons kv rest ih =>
      obtain ⟨k, w⟩ := kv
      by_cases h : k = n
      · simp [dictSet, dictGet, h]
      · simp only [dictSet, dictGet] at ih ⊢
        simp [h, List.find?_cons, ih]

/-- Writing a name leaves other names unchanged. -/
theorem dictGet_dictSet_other (v : List (String × VarValue)) (n m : String)
    (x : VarValue) (h : m ≠ n) : dictGet (dictSet v n x) m = dictGet v m := by
  have hnm : (n == m) = false := by
    simp only [beq_eq_false_iff_ne, ne_eq]
    exact fun hc => h hc.symm
  induction v with
  | nil => simp [dictSet, dictGet, hnm]
  | cons kv rest ih =>
      obtain ⟨k, w⟩ := kv
      by_cases hk : k = n
      · have hkn : (k == n) = true := by simpa using hk
        have hkm : (k == m) = false := by rw [hk]; exact hnm
        simp [dictSet, dictGet, hkn, List.find?_cons, hkm]
      · have hkn : (k == n) = false := by simpa using hk
        by_cases hkm : k = m
        · have hkm2 : (k == m) = true := by simpa using hkm
          simp [dictSet, dictGet, hkn, List.find?_cons, hkm2]
        · have hkm2 : (k == m) = false := by simpa using hkm
          simp only [dictSet, dictGet] at ih ⊢
          simp [hkn, List.find?_cons, hkm2, ih]

/-- A string write preserves the all-strings invariant of the
accumulator. -/
theorem allStr_dictSet (v : List (String × VarValue)) (n s : String)
    (hstr : ∀ kv ∈ v, ∃ u, kv.2 = VarValue.vstr u) :
    ∀ kv ∈ dictSet v n (VarValue.vstr s), ∃ u, kv.2 = VarValue.vstr u := by
  induction v with
  | nil =>
      intro kv hkv
      simp [dictSet] at hkv
      subst hkv
      exact ⟨s, rfl⟩
  | cons kv0 rest ih =>
      obtain ⟨k, w⟩ := kv0
      intro kv hkv
      by_cases h : k = n
      · simp [dictSet, h] at hkv
        rcases hkv with h1 | h1
        · subst h1; exact ⟨s, rfl⟩
        · exact hstr kv (List.mem_cons_of_mem _ h1)
      · simp [dictSet, h] at hkv
        rcases hkv with h1 | h1
        · subst h1; exact hstr (k, w) (List.mem_cons_self _ _)
        · exact ih (fun kv2 hkv2 => hstr kv2 (List.mem_cons_of_mem _ hkv2)) kv h1

/-- Under the all-strings invariant, a successful read is a string. -/
theorem dictGet_allStr (v : List (String × VarValue))
    (hstr : ∀ kv ∈ v, ∃ s, kv.2 = VarValue.vstr s) (n : String) (x : VarValue)
    (hx : dictGet v n = some x) : ∃ s, x = VarValue.vstr s := by
  unfold dictGet at hx
  rcases hfind : v.find? (fun kv => kv.1 == n) with _ | kv
  · rw [hfind] at hx; simp at hx
  · rw [hfind] at hx
    simp at hx
    obtain ⟨s, hs⟩ := hstr kv (List.mem_of_find?_eq_some hfind)
    exact ⟨s, hx ▸ hs⟩

/-- Core accumulation lemma for the streaming bridge: over a stream of
streamed string VARIABLE messages, the loop succeeds, keeps only string
accumulator values, leaves the output file alone, yields one non-final
chunk per increment in arrival order, and each name's accumulated value is
the in-order concatenation of that name's increments appended to whatever
the accumulator already held. -/
theorem processMessages_streamedVars (dsType : DatasourceProviderType)
    (nodeId tenantId : String) (toolFiles : List ToolFileRow) :
    ∀ (pairs : List (String × String)) (st : StreamState),
      (∀ kv ∈ st.vars, ∃ s, kv.2 = VarValue.vstr s) →
      ∃ st',
        processMessages dsType nodeId tenantId toolFiles st
            (pairs.map fun p => streamedVar p.1 p.2) = Except.ok st' ∧
        (∀ kv ∈ st'.vars, ∃ s, kv.2 = VarValue.vstr s) ∧
        st'.fileOut = st.fileOut ∧
        st'.events = st.events ++
          pairs.map (fun p => NodeEvent.chunk [nodeId, p.1] p.2 false) ∧
        ∀ n, dictGet st'.vars n =
          if pairs.any (fun p => p.1 == n) then
            some (VarValue.vstr (strVal (dictGet st.vars n) ++
              concatAll ((pairs.filter fun p => p.1 == n).map Prod.snd)))
          else dictGet st.vars n := by
  intro pairs
  induction pairs with
  | nil =>
      intro st hstr
      exact ⟨st, rfl, hstr, rfl, by simp, fun n => by simp⟩
  | cons p ps ih =>
      obtain ⟨n₀, v₀⟩ := p
      intro st hstr
      set st₁ : StreamState :=
        { st with
          vars := dictSet st.vars n₀
            (VarValue.vstr (strVal (dictGet st.vars n₀) ++ v₀)),
          events := st.events ++ [NodeEvent.chunk [nodeId, n₀] v₀ false] }
        with hst₁
      have hpm : processMessage dsType nodeId tenantId toolFiles st
          (streamedVar n₀ v₀) = Except.ok st₁ := by
        rcases hv : dictGet st.vars n₀ with _ | x
        · simp [processMessage, streamedVar, hv, hst₁, strVal]
        · obtain ⟨s, hs⟩ := dictGet_allStr st.vars hstr n₀ x hv
          subst hs
          simp [processMessage, streamedVar, hv, hst₁, strVal]
      have hstr₁ : ∀ kv ∈ st₁.vars, ∃ s, kv.2 = VarValue.vstr s := by
        exact allStr_dictSet st.vars n₀ _ hstr
      obtain ⟨st', hrun, hstr', hfile, hevents, hdict⟩ := ih st₁ hstr₁
      refine ⟨st', ?_, hstr', by rw [hfile, hst₁], ?_, ?_⟩
      · simp only [List.map_cons, processMessages, hpm]
        exact hrun
      · rw [hevents, hst₁]
        simp
      · intro n
        have hIH := hdict n
        by_cases hn : n₀ = n
        · subst hn
          have h1 : dictGet st₁.vars n₀ =
              some (VarValue.vstr (strVal (dictGet st.vars n₀) ++ v₀)) := by
            rw [hst₁]
            exact dictGet_dictSet_self st.vars n₀ _
          by_cases hany : ps.any (fun p => p.1 == n₀)
          · rw [hIH, if_pos hany, h1]
            simp only [List.any_cons, List.filter_cons, beq_self_eq_true,
              Bool.true_or, if_pos, List.map_cons, concatAll, strVal]
            simp [String.append_assoc]
          · have hfalse : ps.any (fun p => p.1 == n₀) = false :=
              Bool.eq_false_iff.mpr hany
            have hfil : ps.filter (fun p => p.1 == n₀) = [] :=
              List.filter_eq_nil_iff.mpr (List.any_eq_false.mp hfalse)
            rw [hIH, if_neg hany, h1]
            simp [hfil, concatAll, String.append_empty]
        · have h2 : dictGet st₁.vars n = dictGet st.vars n := by
            rw [hst₁]
            exact dictGet_dictSet_other st.vars n₀ n _ (fun hc => hn hc.symm)
          have hbe : (n₀ == n) = false := by
            simpa using hn
          rw [hIH, h2]
          simp only [List.any_cons, List.filter_cons, hbe, Bool.false_or,
            Bool.false_eq_true, if_false]

/-- C9: over an online-document stream of streamed VARIABLE messages, each
increment is emitted as a non-final chunk event in arrival order, exactly
one final empty text chunk closes the stream, and the succeeded completion
event's outputs hold, for each name, the in-order concatenation of that
name's increments — in particular `("a","x")` then `("a","y")` yields
`outputs["a"] = "xy"`. -/
theorem stream_variable_accumulation (nodeId tenantId : String)
    (toolFiles : List ToolFileRow) (pairs : List (String × String)) :
    ∃ outputs,
      stream_node_events DatasourceProviderType.onlineDocument nodeId tenantId
          toolFiles (pairs.map fun p => streamedVar p.1 p.2) =
        Except.ok
          { events :=
              (pairs.map fun p => NodeEvent.chunk [nodeId, p.1] p.2 false) ++
                [NodeEvent.chunk [nodeId, "text"] "" true,
                 NodeEvent.completedDocument outputs],
            poolAdds := [] } ∧
      (∀ n, dictGet outputs n =
          if pairs.any (fun p => p.1 == n) then
            some (VarValue.vstr
              (concatAll ((pairs.filter fun p => p.1 == n).map Prod.snd)))
          else none) ∧
      ((pairs.map fun p => NodeEvent.chunk [nodeId, p.1] p.2 false) ++
          [NodeEvent.chunk [nodeId, "text"] "" true,
           NodeEvent.completedDocument outputs]).filter isFinalChunk =
        [NodeEvent.chunk [nodeId, "text"] "" true] ∧
      stream_node_events DatasourceProviderType.onlineDocument "node" "tenant"
          [] [streamedVar "a" "x", streamedVar "a" "y"] =
        Except.ok
          { events := [NodeEvent.chunk ["node", "a"] "x" false,
              NodeEvent.chunk ["node", "a"] "y" false,
              NodeEvent.chunk ["node", "text"] "" true,
              NodeEvent.completedDocument [("a", VarValue.vstr "xy")]],
            poolAdds := [] } := by
  obtain ⟨st', hrun, hstr', hfile, hevents, hdict⟩ :=
    processMessages_streamedVars DatasourceProviderType.onlineDocument nodeId
      tenantId toolFiles pairs { vars := [], fileOut := none, events := [] }
      (by intro kv hkv; simp at hkv)
  refine ⟨st'.vars, ?_, ?_, ?_, rfl⟩
  · simp [stream_node_events, hrun, hevents]
  · intro n
    have h := hdict n
    simpa [dictGet, strVal, String.empty_append] using h
  · have hnil : ∀ (ps : List (String × String)),
        (ps.map fun p => NodeEvent.chunk [nodeId, p.1] p.2 false).filter
          isFinalChunk = [] := by
      intro ps
      induction ps with
      | nil => rfl
      | cons q qs ih => simp [isFinalChunk, ih]
    simp [List.filter_append, hnil, isFinalChunk]

/-- C10: file resolution in the streaming bridge is tenant-scoped:
`get_upload_file_by_id` succeeds exactly when an `UploadFile` row matches
both the file id and the tenant id, and the ToolFile lookup behind
IMAGE/IMAGE_LINK/BINARY_LINK message URLs raises exactly when no `ToolFile`
row matches both the extracted file id and the tenant id — a valid file id
of another tenant is treated as not found. -/
theorem tenant_scoped_file_resolution (uploadFiles : List UploadFileRow)
    (toolFiles : List ToolFileRow) (fileId tenantId nodeId url : String)
    (st : StreamState) (mtype : MessageType)
    (hm : mtype = MessageType.image ∨ mtype = MessageType.imageLink ∨
        mtype = MessageType.binaryLink) :
    ((get_upload_file_by_id uploadFiles fileId tenantId).isOk = true ↔
      ∃ u ∈ uploadFiles, u.id = fileId ∧ u.tenant_id = tenantId) ∧
    ((∃ e, processMessage DatasourceProviderType.onlineDocument nodeId tenantId
          toolFiles st
          { type := mtype, message := DSPayload.textMessage url, meta := none } =
        Except.error e) ↔
      ¬ ∃ r ∈ toolFiles, r.id = extractFileId url ∧ r.tenant_id = tenantId) := by
  constructor
  · rcases hf : uploadFiles.find?
        (fun r => r.id == fileId && r.tenant_id == tenantId) with _ | u
    · constructor
      · intro hw
        simp [get_upload_file_by_id, hf, Except.isOk, Except.toBool] at hw
      · rintro ⟨u, hu, h1, h2⟩
        have hnone := List.find?_eq_none.mp hf u hu
        simp [h1, h2] at hnone
    · constructor
      · intro _
        have hmem := List.mem_of_find?_eq_some hf
        have hpred := List.find?_some hf
        simp at hpred
        exact ⟨u, hmem, hpred.1, hpred.2⟩
      · intro _
        simp [get_upload_file_by_id, hf, Except.isOk, Except.toBool]
  · have hbranch : processMessage DatasourceProviderType.onlineDocument nodeId
        tenantId toolFiles st
        { type := mtype, message := DSPayload.textMessage url, meta := none } =
        (match toolFiles.find?
            (fun r => r.id == extractFileId url && r.tenant_id == tenantId) with
        | none =>
            Except.error ("ToolFile not found for file_id=" ++ extractFileId url ++
              ", tenant_id=" ++ tenantId)
        | some row =>
            Except.ok
              { st with
                fileOut := some (ToolFileRef.mk (extractFileId url) row.mimetype url) }) := by
      rcases hm with rfl | rfl | rfl <;>
        · simp only [processMessage]
          rcases hfind : toolFiles.find?
              (fun r => r.id == extractFileId url && r.tenant_id == tenantId)
            with _ | row <;> simp [hfind]
    rcases hfind : toolFiles.find?
        (fun r => r.id == extractFileId url && r.tenant_id == tenantId)
      with _ | row <;> rw [hbranch, hfind]
    · constructor
      · intro _
        rintro ⟨r, hr, h1, h2⟩
        have hnone := List.find?_eq_none.mp hfind r hr
        simp [h1, h2] at hnone
      · intro _
        exact ⟨_, rfl⟩
    · constructor
      · rintro ⟨e, he⟩
        exact Except.noConfusion he
      · intro hno
        have hmem := List.mem_of_find?_eq_some hfind
        have hpred := List.find?_some hfind
        simp at hpred
        exact absurd ⟨row, hmem, hpred.1, hpred.2⟩ hno

/-- C10 witness: file resolution for the three link-ish message kinds at a
concrete input — a ToolFile row under another tenant is not found. -/
theorem tenant_scoped_file_resolution_witness :
    ∃ e, processMessage DatasourceProviderType.onlineDocument "n" "t1"
        [{ id := "abc", tenant_id := "t2", mimetype := "image/png" }]
        { vars := [], fileOut := none, events := [] }
        { type := MessageType.image,
          message := DSPayload.textMessage "https://x/files/abc.png",
          meta := none } =
      Except.error e :=
  (tenant_scoped_file_resolution []
    [{ id := "abc", tenant_id := "t2", mimetype := "image/png" }]
    "f" "t1" "n" "https://x/files/abc.png"
    { vars := [], fileOut := none, events := [] }
    MessageType.image (Or.inl rfl)).2.mpr (by decide)

end Dify
